import Mathlib

/-!
Verification of the short-lived cross-device roster synchronization service
(`api/sync/create.js`, `api/sync/get.js`, and the `@upstash/redis` duplicate).

The handlers are shallowly embedded: JavaScript JSON values become the
inductive `JVal`, the Redis registry becomes a function from keys to stored
values with an absolute expiry instant (`EX: 600` on `set` means the key is
readable strictly before `storeTime + 600` and gone afterwards), and each
handler becomes a pure function from (time, registry, request) to
(response, registry, registry-event trace).  `JSON.stringify`/`JSON.parse`
round-tripping of a stored snapshot is the identity on `JVal`, so the stored
value is kept structurally.  `Math.random` is embedded as a rational in
`[0, 1)`.  The redeem race (two in-flight redeem requests interleaving their
`GET` and `DEL` registry commands) is embedded as a two-thread interleaving
semantics where each single Redis command is one atomic step.
-/

namespace SgaSync

/-- JSON-style values: the payloads the sync endpoints move around.
Numbers are embedded as integers (the fields the sync core itself touches —
`exportedAt`, `expiresInSec`, status codes — are integral). -/
inductive JVal where
  | null : JVal
  | bool : Bool → JVal
  | num  : Int → JVal
  | str  : String → JVal
  | arr  : List JVal → JVal
  | obj  : List (String × JVal) → JVal

/-- JavaScript truthiness of a value (`null`, `false`, `0`, `""` are falsy;
objects and arrays are always truthy). -/
def truthy : JVal → Bool
  | .null => false
  | .bool b => b
  | .num n => n != 0
  | .str s => s != ""
  | .arr _ => true
  | .obj _ => true

/-- JavaScript `x || d`: the default `d` is used when `x` is absent
(`undefined`) or falsy. -/
def jsOr (x : Option JVal) (d : JVal) : JVal :=
  match x with
  | some v => if truthy v then v else d
  | none => d

/-- First binding of a key in an object's field list (JavaScript object
literals have unique keys, for which first and last binding agree). -/
def lookupKey : List (String × JVal) → String → Option JVal
  | [], _ => none
  | (k, v) :: rest, key => if k = key then some v else lookupKey rest key

/-- JavaScript property access `p.key`: `undefined` (here `none`) on
non-objects. -/
def getProp : JVal → String → Option JVal
  | .obj o, key => lookupKey o key
  | _, _ => none

/-- `Array.isArray` on a possibly-absent value. -/
def isArrOpt : Option JVal → Bool
  | some (.arr _) => true
  | _ => false

/-- Object spread override `{...o, key: v}` restricted to one key: an
existing binding is overwritten in place, a missing one is appended. -/
def setKey (o : List (String × JVal)) (key : String) (v : JVal) :
    List (String × JVal) :=
  if o.any (fun p => p.1 == key) then
    o.map (fun p => if p.1 == key then (key, v) else p)
  else o ++ [(key, v)]

/-- The character set stripped by JavaScript's `String.prototype.trim()`:
the ECMAScript WhiteSpace productions (tab U+0009, vertical tab U+000B,
form feed U+000C, space U+0020, no-break space U+00A0, zero-width no-break
space U+FEFF, and the Unicode space separators U+1680, U+2000–U+200A,
U+202F, U+205F, U+3000) together with the LineTerminator productions
(line feed U+000A, carriage return U+000D, line separator U+2028,
paragraph separator U+2029). -/
def jsWhitespace (c : Char) : Bool :=
  c.toNat == 0x09 || c.toNat == 0x0A || c.toNat == 0x0B || c.toNat == 0x0C ||
  c.toNat == 0x0D || c.toNat == 0x20 || c.toNat == 0xA0 ||
  c.toNat == 0x1680 ||
  (decide (0x2000 ≤ c.toNat) && decide (c.toNat ≤ 0x200A)) ||
  c.toNat == 0x2028 || c.toNat == 0x2029 || c.toNat == 0x202F ||
  c.toNat == 0x205F || c.toNat == 0x3000 || c.toNat == 0xFEFF

/-- `String.prototype.trim()`: strip leading and trailing ECMAScript
whitespace. -/
def jsTrim (s : String) : String :=
  String.mk (((s.data.dropWhile jsWhitespace).reverse.dropWhile
    jsWhitespace).reverse)

/-- The redeem validation regex `/^\d{6}$/`: exactly six decimal digits. -/
def isSixDigits (s : String) : Bool :=
  s.data.length == 6 && s.data.all Char.isDigit

/-- The registry (Redis): each key maps to a stored value together with the
absolute instant at which it expires. -/
abbrev Registry := String → Option (JVal × Int)

/-- `redis.get` at instant `now`: a key is readable only strictly before its
expiry (an expired key behaves exactly like an absent one). -/
def Registry.get (reg : Registry) (now : Int) (key : String) : Option JVal :=
  match reg key with
  | some (v, exp) => if now < exp then some v else none
  | none => none

/-- `redis.set(key, v, { EX: ttl })` at instant `now`. -/
def Registry.set (reg : Registry) (key : String) (v : JVal) (now ttl : Int) :
    Registry :=
  fun k => if k = key then some (v, now + ttl) else reg k

/-- `redis.del(key)`. -/
def Registry.del (reg : Registry) (key : String) : Registry :=
  fun k => if k = key then none else reg k

/-- The registry with no keys at all. -/
def emptyReg : Registry := fun _ => none

/-- One registry command issued by a handler, for stating "no lookup / no
write happens" properties. -/
inductive REvent where
  | rget (key : String)
  | rdel (key : String)
  | rset (key : String)
  deriving Repr, DecidableEq

/-- An HTTP-ish response: status code and JSON body. -/
structure Resp where
  status : Nat
  body : JVal

/-- Result of one handler invocation: the response, the registry afterwards,
and the trace of registry commands the handler issued. -/
structure HRes where
  resp : Resp
  reg : Registry
  events : List REvent

/-- The ticket key namespace: `` `sync:${code}` ``. -/
def syncKey (code : String) : String := "sync:" ++ code

/-- The create handler's collision-probe loop
(`for (let i = 0; i < 8; i++) { exists = get(sync:code); if (!exists) break;
code = makeCode(); }`), with the successive `makeCode()` draws supplied as
the stream `gen` (`gen 0` is the draw before the loop).  Returns the final
code together with the list of probed candidates, in order. -/
def codeLoopT (liveAt : String → Bool) (gen : Nat → String) :
    String → Nat → Nat → String × List String
  | code, _, 0 => (code, [])
  | code, idx, k + 1 =>
    if liveAt code then
      ((codeLoopT liveAt gen (gen idx) (idx + 1) k).1,
        code :: (codeLoopT liveAt gen (gen idx) (idx + 1) k).2)
    else (code, [code])

/-- The whole code-selection phase of the create handler: first draw, then
at most 8 probe iterations. -/
def syncCodeRun (liveAt : String → Bool) (gen : Nat → String) :
    String × List String :=
  codeLoopT liveAt gen (gen 0) 1 8

/-- `typeof req.body === "string" ? JSON.parse(req.body) : req.body`.
`parse` models the platform `JSON.parse`; `none` is a thrown `SyntaxError`,
which the handler's `try`/`catch` turns into a 500. -/
def decodeBody (parse : String → Option JVal) (body : JVal) : Option JVal :=
  match body with
  | .str s => parse s
  | v => some v

/-- Payload normalization performed by the create handler:
`{...payload, mode: payload.mode || "all",
  exportedAt: payload.exportedAt || Date.now()}`. -/
def normalizeObj (o : List (String × JVal)) (now : Int) :
    List (String × JVal) :=
  setKey (setKey o "mode" (jsOr (lookupKey o "mode") (.str "all")))
    "exportedAt" (jsOr (lookupKey o "exportedAt") (.num now))

/-- Normalization on a raw decoded body (validation guarantees the body is
an object before this is reached). -/
def normalizeVal (p : JVal) (now : Int) : JVal :=
  match p with
  | .obj o => .obj (normalizeObj o now)
  | v => v

/-- The create handler's collision probe `redis.get(sync:code)` followed by
the `!exists` test: a candidate is live when the key is readable (stored
snapshots are non-empty JSON strings, hence truthy whenever present). -/
def liveProbe (reg : Registry) (now : Int) : String → Bool :=
  fun c => (Registry.get reg now (syncKey c)).isSome

/-- The create endpoint (`api/sync/create.js` default export), embedded
against registry `reg` at server instant `now` (`Date.now()`), with
`JSON.parse` as `parse` and the `Math.random`-driven `makeCode` draws as
`gen`.  The stored snapshot's `JSON.stringify`/`JSON.parse` round trip is
the identity on `JVal`, so the stored value is kept structurally. -/
def createHandler (parse : String → Option JVal) (gen : Nat → String)
    (now : Int) (reg : Registry) (method : String) (body : JVal) : HRes :=
  if method ≠ "POST" then
    ⟨⟨405, .obj [("error", .str "POST only")]⟩, reg, []⟩
  else
    match decodeBody parse body with
    | none =>
      ⟨⟨500, .obj [("error", .str "Internal Server Error"),
        ("detail", .str "SyntaxError: Unexpected token in JSON")]⟩, reg, []⟩
    | some payload =>
      if truthy payload && isArrOpt (getProp payload "records") then
        ⟨⟨200, .obj [("code", .str (syncCodeRun (liveProbe reg now) gen).1),
            ("expiresInSec", .num 600)]⟩,
          Registry.set reg (syncKey (syncCodeRun (liveProbe reg now) gen).1)
            (normalizeVal payload now) now 600,
          (syncCodeRun (liveProbe reg now) gen).2.map
              (fun c => REvent.rget (syncKey c)) ++
            [REvent.rset (syncKey (syncCodeRun (liveProbe reg now) gen).1)]⟩
      else
        ⟨⟨400, .obj [("error",
          .str "Missing payload.records (must be an array)")]⟩, reg, []⟩

/-- The redeem endpoint (`api/sync/get.js` default export), embedded against
registry `reg` at server instant `now`.  `qcode` is `req.query.code`
(`none` when the parameter is absent; `String(req.query.code || "")` turns
that into `""`). -/
def getHandler (now : Int) (reg : Registry) (method : String)
    (qcode : Option String) : HRes :=
  if method ≠ "GET" then
    ⟨⟨405, .obj [("error", .str "GET only")]⟩, reg, []⟩
  else if isSixDigits (jsTrim (qcode.getD "")) then
    match Registry.get reg now (syncKey (jsTrim (qcode.getD ""))) with
    | none =>
      ⟨⟨404, .obj [("error", .str "Code expired or not found")]⟩, reg,
        [.rget (syncKey (jsTrim (qcode.getD "")))]⟩
    | some v =>
      ⟨⟨200, v⟩, Registry.del reg (syncKey (jsTrim (qcode.getD ""))),
        [.rget (syncKey (jsTrim (qcode.getD ""))),
         .rdel (syncKey (jsTrim (qcode.getD "")))]⟩
  else ⟨⟨400, .obj [("error", .str "Bad code")]⟩, reg, []⟩

/-- The 6-digit `code` field of a create response. -/
def respCode (r : Resp) : String :=
  match getProp r.body "code" with
  | some (.str c) => c
  | _ => ""

/-- `makeCode()` = `String(Math.floor(100000 + Math.random() * 900000))`,
with the `Math.random()` draw `r ∈ [0, 1)` made explicit; the numeric value
before `String(...)`. -/
def makeCode (r : ℚ) : ℕ := (⌊(100000 : ℚ) + r * 900000⌋).toNat

/-- `create` immediately followed by `redeem` of the returned code: the
create call runs at instant `now`, the redeem call at instant `t`. -/
def redeemAfterCreate (parse : String → Option JVal) (gen : Nat → String)
    (now : Int) (reg : Registry) (body : JVal) (t : Int) : HRes :=
  getHandler t (createHandler parse gen now reg "POST" body).reg "GET"
    (some (respCode (createHandler parse gen now reg "POST" body).resp))

/-! ### Interleaving model of concurrent redemption

The redeem handler issues its `redis.get` and its `redis.del` as two
separate awaited commands (`api/sync/get.js` lines 13-18).  Each single
Redis command is atomic, but between the two commands of one request any
other in-flight request may run.  A redeem request past validation is
therefore a thread taking two atomic steps: read the key, then (if the read
returned a value) delete the key and answer 200, else answer 404. -/

/-- Control state of one in-flight redeem request for a fixed code. -/
inductive TState where
  | start : TState
  | got : Option JVal → TState
  | done : Resp → TState

/-- One atomic step of a redeem request (post-validation part of
`api/sync/get.js`): first step performs the `redis.get`, second step either
answers 404 (nothing read) or performs the `redis.del` and answers 200 with
the snapshot read earlier. -/
def tstep (now : Int) (key : String) : TState × Registry → TState × Registry
  | (.start, reg) => (.got (Registry.get reg now key), reg)
  | (.got none, reg) =>
    (.done ⟨404, .obj [("error", .str "Code expired or not found")]⟩, reg)
  | (.got (some v), reg) => (.done ⟨200, v⟩, Registry.del reg key)
  | (.done r, reg) => (.done r, reg)

/-- Run two concurrent redeem requests for the same code under a schedule:
`true` means thread one takes its next atomic step, `false` thread two. -/
def runSched (now : Int) (key : String) :
    List Bool → TState × TState × Registry → TState × TState × Registry
  | [], s => s
  | b :: rest, (t1, t2, reg) =>
    if b then
      runSched now key rest ((tstep now key (t1, reg)).1, t2,
        (tstep now key (t1, reg)).2)
    else
      runSched now key rest (t1, (tstep now key (t2, reg)).1,
        (tstep now key (t2, reg)).2)

/-- A concrete stored snapshot for the race scenario. -/
def raceSnap : JVal :=
  .obj [("records", .arr []), ("mode", .str "all"), ("exportedAt", .num 0)]

/-- A registry holding one live ticket under code `123456` (stored at
instant 0 with the 600 second ttl, observed at instant 0). -/
def raceReg : Registry :=
  fun k => if k = "sync:123456" then some (raceSnap, 600) else none

/-- Concrete invalid payload for the round-trip counterexample: `records`
is a (valid) array and the scope tag `mode` is present but the empty
string. -/
def cexPayload : List (String × JVal) :=
  [("records", .arr []), ("mode", .str "")]

/-- Create-then-redeem of `cexPayload` against an empty registry with the
first code draw `123456` (both calls at instant 0). -/
def cexRedeem : HRes :=
  redeemAfterCreate (fun _ => none) (fun _ => "123456") 0 emptyReg
    (.obj cexPayload) 0

/-- A concrete `JSON.parse` model for witnesses: every string fails to
parse (no witness below ever parses a string body). -/
def wParse : String → Option JVal := fun _ => none

/-- A concrete `makeCode` draw stream for witnesses: always `123456`. -/
def wGen : Nat → String := fun _ => "123456"

/-- A concrete minimal valid payload for witnesses. -/
def wPayload : List (String × JVal) := [("records", .arr [])]

/-! ### Helper lemmas: association lists and normalization -/

theorem lookupKey_none_of_not_any (o : List (String × JVal)) (k : String)
    (h : o.any (fun p => p.1 == k) = false) : lookupKey o k = none := by
  induction o with
  | nil => rfl
  | cons p rest ih =>
    obtain ⟨a, b⟩ := p
    simp only [List.any_cons, Bool.or_eq_false_iff] at h
    simp only [lookupKey]
    rw [if_neg (by simpa using h.1)]
    exact ih h.2

theorem lookupKey_append_none (o l : List (String × JVal)) (k : String)
    (h : lookupKey o k = none) : lookupKey (o ++ l) k = lookupKey l k := by
  induction o with
  | nil => rfl
  | cons p rest ih =>
    obtain ⟨a, b⟩ := p
    simp only [lookupKey] at h
    simp only [List.cons_append, lookupKey]
    by_cases hk : a = k
    · rw [if_pos hk] at h; exact absurd h (by simp)
    · rw [if_neg hk] at h ⊢; exact ih h

theorem lookupKey_append_some (o l : List (String × JVal)) (k : String)
    (v : JVal) (h : lookupKey o k = some v) :
    lookupKey (o ++ l) k = some v := by
  induction o with
  | nil => exact absurd h (by simp [lookupKey])
  | cons p rest ih =>
    obtain ⟨a, b⟩ := p
    simp only [lookupKey] at h
    simp only [List.cons_append, lookupKey]
    by_cases hk : a = k
    · rw [if_pos hk] at h ⊢; exact h
    · rw [if_neg hk] at h ⊢; exact ih h

theorem lookupKey_map_set (o : List (String × JVal)) (k : String) (v : JVal)
    (h : o.any (fun p => p.1 == k) = true) :
    lookupKey (o.map (fun p => if p.1 == k then (k, v) else p)) k = some v := by
  induction o with
  | nil => simp at h
  | cons p rest ih =>
    obtain ⟨a, b⟩ := p
    simp only [List.any_cons, Bool.or_eq_true] at h
    simp only [List.map_cons]
    by_cases hk : a = k
    · subst hk
      rw [if_pos (show (a == a) = true from by simp)]
      simp [lookupKey]
    · rw [if_neg (show ¬((a == k) = true) from by simpa using hk)]
      simp only [lookupKey]
      rw [if_neg hk]
      exact ih (h.resolve_left (by simpa using hk))

theorem lookupKey_map_set_ne (o : List (String × JVal)) (k k2 : String)
    (v : JVal) (h : k2 ≠ k) :
    lookupKey (o.map (fun p => if p.1 == k then (k, v) else p)) k2 =
      lookupKey o k2 := by
  induction o with
  | nil => rfl
  | cons p rest ih =>
    obtain ⟨a, b⟩ := p
    simp only [List.map_cons]
    by_cases hk : a = k
    · subst hk
      rw [if_pos (show (a == a) = true from by simp)]
      simp only [lookupKey]
      rw [if_neg (fun hh => h hh.symm), if_neg (fun hh => h hh.symm)]
      exact ih
    · rw [if_neg (show ¬((a == k) = true) from by simpa using hk)]
      simp only [lookupKey]
      by_cases hk2 : a = k2
      · rw [if_pos hk2, if_pos hk2]
      · rw [if_neg hk2, if_neg hk2]; exact ih

theorem lookupKey_setKey_self (o : List (String × JVal)) (k : String)
    (v : JVal) : lookupKey (setKey o k v) k = some v := by
  unfold setKey
  by_cases h : o.any (fun p => p.1 == k) = true
  · rw [if_pos h]; exact lookupKey_map_set o k v h
  · rw [if_neg h]
    have h2 : o.any (fun p => p.1 == k) = false := by
      simp only [Bool.not_eq_true] at h; exact h
    rw [lookupKey_append_none _ _ _ (lookupKey_none_of_not_any o k h2)]
    simp [lookupKey]

theorem lookupKey_setKey_ne (o : List (String × JVal)) (k k2 : String)
    (v : JVal) (h : k2 ≠ k) :
    lookupKey (setKey o k v) k2 = lookupKey o k2 := by
  unfold setKey
  by_cases ha : o.any (fun p => p.1 == k) = true
  · rw [if_pos ha]; exact lookupKey_map_set_ne o k k2 v h
  · rw [if_neg ha]
    cases h2 : lookupKey o k2 with
    | some w => exact lookupKey_append_some o _ k2 w h2
    | none =>
      rw [lookupKey_append_none o _ k2 h2]
      simp only [lookupKey]
      rw [if_neg (fun hh => h hh.symm)]

theorem normalizeObj_lookup_ne (o : List (String × JVal)) (now : Int)
    (k : String) (h1 : k ≠ "mode") (h2 : k ≠ "exportedAt") :
    lookupKey (normalizeObj o now) k = lookupKey o k := by
  unfold normalizeObj
  rw [lookupKey_setKey_ne _ _ _ _ h2, lookupKey_setKey_ne _ _ _ _ h1]

theorem normalizeObj_mode (o : List (String × JVal)) (now : Int) :
    lookupKey (normalizeObj o now) "mode" =
      some (jsOr (lookupKey o "mode") (.str "all")) := by
  unfold normalizeObj
  rw [lookupKey_setKey_ne _ _ _ _ (by decide), lookupKey_setKey_self]

theorem normalizeObj_exportedAt (o : List (String × JVal)) (now : Int) :
    lookupKey (normalizeObj o now) "exportedAt" =
      some (jsOr (lookupKey o "exportedAt") (.num now)) := by
  unfold normalizeObj
  rw [lookupKey_setKey_self]

/-! ### Helper lemmas: the collision-probe loop -/

theorem codeLoopT_probes_le (liveAt : String → Bool) (gen : Nat → String) :
    ∀ (k : Nat) (code : String) (idx : Nat),
      (codeLoopT liveAt gen code idx k).2.length ≤ k := by
  intro k
  induction k with
  | zero => intro code idx; simp [codeLoopT]
  | succ k ih =>
    intro code idx
    simp only [codeLoopT]
    by_cases h : liveAt code = true
    · rw [if_pos h]
      simpa using Nat.succ_le_succ (ih (gen idx) (idx + 1))
    · rw [if_neg h]
      simp

theorem codeLoopT_of_free (liveAt : String → Bool) (gen : Nat → String)
    (k idx : Nat) (code : String) (h : liveAt code = false) :
    (codeLoopT liveAt gen code idx k).1 = code := by
  cases k with
  | zero => rfl
  | succ k => simp [codeLoopT, h]

theorem codeLoopT_result_gen (liveAt : String → Bool) (gen : Nat → String) :
    ∀ (k idx j : Nat),
      ∃ j2, (codeLoopT liveAt gen (gen j) idx k).1 = gen j2 := by
  intro k
  induction k with
  | zero => intro idx j; exact ⟨j, rfl⟩
  | succ k ih =>
    intro idx j
    by_cases h : liveAt (gen j) = true
    · simp only [codeLoopT, if_pos h]
      exact ih (idx + 1) idx
    · rw [Bool.not_eq_true] at h
      simp only [codeLoopT, h]
      exact ⟨j, by simp⟩

theorem codeLoopT_all_live (liveAt : String → Bool) (gen : Nat → String) :
    ∀ (k idx : Nat) (code : String),
      liveAt code = true →
      (∀ j, idx ≤ j → j + 1 < idx + k → liveAt (gen j) = true) →
      (codeLoopT liveAt gen code idx k).1 =
        if k = 0 then code else gen (idx + k - 1) := by
  intro k
  induction k with
  | zero => intro idx code _ _; rfl
  | succ k ih =>
    intro idx code hc hall
    simp only [codeLoopT, if_pos hc]
    cases k with
    | zero => simp [codeLoopT]
    | succ k2 =>
      have hgenidx : liveAt (gen idx) = true :=
        hall idx (le_refl idx) (by omega)
      have := ih (idx + 1) (gen idx) hgenidx
        (fun j hj1 hj2 => hall j (by omega) (by omega))
      rw [if_neg (by omega)] at this
      simp only [this]
      rw [if_neg (by omega)]
      congr 1
      omega

theorem codeLoopT_free_result (liveAt : String → Bool) (gen : Nat → String) :
    ∀ (k idx : Nat) (code : String),
      (∃ j, idx ≤ j ∧ j + 1 < idx + k ∧ liveAt (gen j) = false) →
      liveAt (codeLoopT liveAt gen code idx k).1 = false := by
  intro k
  induction k with
  | zero =>
    intro idx code h
    obtain ⟨j, hj1, hj2, _⟩ := h
    omega
  | succ k ih =>
    intro idx code h
    obtain ⟨j, hj1, hj2, hj3⟩ := h
    by_cases hc : liveAt code = true
    · simp only [codeLoopT, if_pos hc]
      by_cases hji : j = idx
      · subst hji
        rw [codeLoopT_of_free liveAt gen k (j + 1) (gen j) hj3]
        exact hj3
      · exact ih (idx + 1) (gen idx) ⟨j, by omega, by omega, hj3⟩
    · rw [Bool.not_eq_true] at hc
      rw [codeLoopT_of_free liveAt gen (k + 1) idx code hc]
      exact hc

/-! ### Helper lemmas: digits and trimming -/

theorem toNat_bounds_of_isDigit (c : Char) (h : c.isDigit = true) :
    48 ≤ c.toNat ∧ c.toNat ≤ 57 := by
  have h2 : '0' ≤ c ∧ c ≤ '9' := by
    simpa [Char.isDigit, Bool.and_eq_true] using h
  obtain ⟨ha, hb⟩ := h2
  have ha2 : ('0').val ≤ c.val := ha
  have hb2 : c.val ≤ ('9').val := hb
  exact ⟨BitVec.le_def.mp (UInt32.le_def.mp ha2),
    BitVec.le_def.mp (UInt32.le_def.mp hb2)⟩

theorem jsWhitespace_eq_false_of_isDigit (c : Char) (h : c.isDigit = true) :
    jsWhitespace c = false := by
  obtain ⟨h1, h2⟩ := toNat_bounds_of_isDigit c h
  by_contra hw
  rw [Bool.not_eq_false] at hw
  simp only [jsWhitespace, Bool.or_eq_true, Bool.and_eq_true, beq_iff_eq,
    decide_eq_true_eq] at hw
  omega

theorem dropWhile_ws_of_all_digits (l : List Char)
    (h : l.all Char.isDigit = true) :
    l.dropWhile jsWhitespace = l := by
  cases l with
  | nil => rfl
  | cons c rest =>
    simp only [List.all_cons, Bool.and_eq_true] at h
    simp [List.dropWhile_cons, jsWhitespace_eq_false_of_isDigit c h.1]

theorem jsTrim_of_sixDigits (s : String) (h : isSixDigits s = true) :
    jsTrim s = s := by
  have hall : s.data.all Char.isDigit = true := by
    have := (by simpa [isSixDigits, Bool.and_eq_true] using h :
      s.data.length = 6 ∧ s.data.all Char.isDigit = true)
    exact this.2
  unfold jsTrim
  rw [dropWhile_ws_of_all_digits _ hall,
    dropWhile_ws_of_all_digits _ (by simpa using hall), List.reverse_reverse]

/-! ### Helper lemmas: registry and pipeline reductions -/

theorem Registry.get_set_self (reg : Registry) (key : String) (v : JVal)
    (now ttl t : Int) (h : t < now + ttl) :
    Registry.get (Registry.set reg key v now ttl) t key = some v := by
  simp [Registry.get, Registry.set, h]

theorem Registry.get_set_expired (reg : Registry) (key : String) (v : JVal)
    (now ttl t : Int) (h : ¬t < now + ttl) :
    Registry.get (Registry.set reg key v now ttl) t key = none := by
  simp [Registry.get, Registry.set, h]

theorem Registry.get_del_self (reg : Registry) (key : String) (t : Int) :
    Registry.get (Registry.del reg key) t key = none := by
  simp [Registry.get, Registry.del]

theorem syncCodeRun_gen (liveAt : String → Bool) (gen : Nat → String) :
    ∃ j, (syncCodeRun liveAt gen).1 = gen j :=
  codeLoopT_result_gen liveAt gen 8 1 0

theorem createHandler_valid (parse : String → Option JVal)
    (gen : Nat → String) (now : Int) (reg : Registry)
    (o : List (String × JVal))
    (hrec : isArrOpt (lookupKey o "records") = true) :
    createHandler parse gen now reg "POST" (.obj o) =
      ⟨⟨200, .obj [("code", .str (syncCodeRun (liveProbe reg now) gen).1),
          ("expiresInSec", .num 600)]⟩,
        Registry.set reg (syncKey (syncCodeRun (liveProbe reg now) gen).1)
          (.obj (normalizeObj o now)) now 600,
        (syncCodeRun (liveProbe reg now) gen).2.map
            (fun c => REvent.rget (syncKey c)) ++
          [REvent.rset (syncKey (syncCodeRun (liveProbe reg now) gen).1)]⟩ := by
  unfold createHandler
  rw [if_neg (by simp)]
  simp only [decodeBody]
  rw [if_pos (by simp [truthy, getProp, hrec])]
  rfl

theorem respCode_create (code : String) :
    respCode ⟨200, .obj [("code", .str code), ("expiresInSec", .num 600)]⟩ =
      code := by
  simp [respCode, getProp, lookupKey]

theorem redeemAfterCreate_fresh (parse : String → Option JVal)
    (gen : Nat → String) (now : Int) (reg : Registry)
    (o : List (String × JVal)) (t : Int)
    (hrec : isArrOpt (lookupKey o "records") = true)
    (hgen : ∀ i, isSixDigits (gen i) = true)
    (ht : t < now + 600) :
    (redeemAfterCreate parse gen now reg (.obj o) t).resp =
      ⟨200, .obj (normalizeObj o now)⟩ := by
  obtain ⟨j, hj⟩ := syncCodeRun_gen (liveProbe reg now) gen
  have hsix : isSixDigits (syncCodeRun (liveProbe reg now) gen).1 = true := by
    rw [hj]; exact hgen j
  unfold redeemAfterCreate
  rw [createHandler_valid parse gen now reg o hrec]
  simp only [respCode_create, getHandler, Option.getD_some,
    jsTrim_of_sixDigits _ hsix, hsix, if_true,
    Registry.get_set_self reg _ _ now 600 t ht]
  rw [if_neg (by simp)]

theorem redeemAfterCreate_expired (parse : String → Option JVal)
    (gen : Nat → String) (now : Int) (reg : Registry)
    (o : List (String × JVal)) (t : Int)
    (hrec : isArrOpt (lookupKey o "records") = true)
    (hgen : ∀ i, isSixDigits (gen i) = true)
    (ht : now + 600 ≤ t) :
    (redeemAfterCreate parse gen now reg (.obj o) t).resp.status = 404 := by
  obtain ⟨j, hj⟩ := syncCodeRun_gen (liveProbe reg now) gen
  have hsix : isSixDigits (syncCodeRun (liveProbe reg now) gen).1 = true := by
    rw [hj]; exact hgen j
  unfold redeemAfterCreate
  rw [createHandler_valid parse gen now reg o hrec]
  simp only [respCode_create, getHandler, Option.getD_some,
    jsTrim_of_sixDigits _ hsix, hsix, if_true,
    Registry.get_set_expired reg _ _ now 600 t (by omega)]
  rw [if_neg (by simp)]

/-! ### Claim theorems -/

/-- C1 (code bug evidence): the redeem endpoint's take-and-delete is NOT
one indivisible step.  Its `redis.get` and `redis.del` are two separate
atomic registry commands, so under the interleaving
GET(thread 1), GET(thread 2), DEL(thread 1), DEL(thread 2) — two concurrent
redemption attempts for the same live code `123456` — BOTH callers observe
success and receive the snapshot, contradicting the claim that exactly one
succeeds and all others observe "not found". -/
theorem redeem_race_two_successes :
    (runSched 0 "sync:123456" [true, false, true, false]
      (.start, .start, raceReg)).1 = TState.done ⟨200, raceSnap⟩ ∧
    (runSched 0 "sync:123456" [true, false, true, false]
      (.start, .start, raceReg)).2.1 = TState.done ⟨200, raceSnap⟩ := by
  constructor <;> rfl

/-- C5: a POST whose decoded body is missing `records` or whose `records`
is not an array is answered 400 with an error message, the registry is
returned unchanged, and no registry command at all is issued. -/
theorem create_invalid_payload_400 (parse : String → Option JVal)
    (gen : Nat → String) (now : Int) (reg : Registry) (body payload : JVal)
    (h1 : decodeBody parse body = some payload)
    (h2 : (truthy payload && isArrOpt (getProp payload "records")) = false) :
    createHandler parse gen now reg "POST" body =
      ⟨⟨400, .obj [("error",
        .str "Missing payload.records (must be an array)")]⟩, reg, []⟩ := by
  simp only [createHandler, h1]
  rw [if_neg (by simp), if_neg (by simp [h2])]

/-- C5 witness: the payload `{}` (decoded body an empty object) gets a 400
and leaves the registry untouched. -/
theorem create_invalid_payload_400_witness :
    decodeBody wParse (.obj []) = some (.obj []) ∧
    (truthy (.obj []) && isArrOpt (getProp (.obj []) "records")) = false ∧
    createHandler wParse wGen 0 emptyReg "POST" (.obj []) =
      ⟨⟨400, .obj [("error",
        .str "Missing payload.records (must be an array)")]⟩, emptyReg, []⟩ :=
  ⟨rfl, rfl, create_invalid_payload_400 wParse wGen 0 emptyReg (.obj [])
    (.obj []) rfl rfl⟩

/-- C6 counterexample: a string body that is not valid JSON is answered
with status 500 (the `JSON.parse` exception falls into the handler's
catch-all), not with the client error (400-equivalent) the claim
requires. -/
theorem create_badjson_500_cex :
    (createHandler wParse wGen 0 emptyReg "POST" (.str "not json")).resp.status
        = 500 ∧
    (createHandler wParse wGen 0 emptyReg "POST" (.str "not json")).resp.status
        ≠ 400 :=
  ⟨rfl, by decide⟩

/-- C6 (amended): a string body whose JSON decoding fails is answered with
the 500 server-error shape (with a detail message), the registry is
unchanged and no registry command is issued; only bodies that decode but
fail the `records` validation get the 400. -/
theorem create_badjson_amended (parse : String → Option JVal)
    (gen : Nat → String) (now : Int) (reg : Registry) (s : String)
    (h : parse s = none) :
    (createHandler parse gen now reg "POST" (.str s)).resp.status = 500 ∧
    (createHandler parse gen now reg "POST" (.str s)).reg = reg ∧
    (createHandler parse gen now reg "POST" (.str s)).events = [] := by
  simp [createHandler, decodeBody, h]

/-- C6 witness: concrete unparseable body. -/
theorem create_badjson_amended_witness :
    wParse "not json" = none ∧
    ((createHandler wParse wGen 0 emptyReg "POST"
        (.str "not json")).resp.status = 500 ∧
      (createHandler wParse wGen 0 emptyReg "POST"
        (.str "not json")).reg = emptyReg ∧
      (createHandler wParse wGen 0 emptyReg "POST"
        (.str "not json")).events = []) :=
  ⟨rfl, create_badjson_amended wParse wGen 0 emptyReg "not json" rfl⟩

/-- C4 counterexample: the query parameter `" 123456"` has a leading
character (a space) around the six digits, so by the claim it must be
rejected with 400 and no registry lookup; the handler instead trims the
parameter first, accepts it, performs the lookup (one `rget` event) and
answers 404 on the empty registry. -/
theorem redeem_whitespace_code_cex :
    (getHandler 0 emptyReg "GET" (some " 123456")).resp.status = 404 ∧
    (getHandler 0 emptyReg "GET" (some " 123456")).resp.status ≠ 400 ∧
    (getHandler 0 emptyReg "GET" (some " 123456")).events =
      [REvent.rget "sync:123456"] :=
  ⟨rfl, by decide, rfl⟩

/-- C4 (amended): the `code` parameter is first trimmed of leading and
trailing whitespace; if the trimmed value is not exactly 6 digits the
endpoint answers 400, issues no registry command and leaves the registry
unchanged; if the trimmed value is exactly 6 digits validation passes: the
first registry command issued is the lookup of `sync:<code>` and the status
is not 400. -/
theorem redeem_validation_amended (now : Int) (reg : Registry)
    (q : Option String) :
    (isSixDigits (jsTrim (q.getD "")) = false →
      (getHandler now reg "GET" q).resp.status = 400 ∧
      (getHandler now reg "GET" q).events = [] ∧
      (getHandler now reg "GET" q).reg = reg) ∧
    (isSixDigits (jsTrim (q.getD "")) = true →
      (getHandler now reg "GET" q).events.head? =
        some (.rget (syncKey (jsTrim (q.getD "")))) ∧
      (getHandler now reg "GET" q).resp.status ≠ 400) := by
  constructor
  · intro h
    simp [getHandler, h]
  · intro h
    cases hget : Registry.get reg now (syncKey (jsTrim (q.getD ""))) with
    | none => simp [getHandler, h, hget]
    | some v => simp [getHandler, h, hget]

/-- C3: a redeem call for a well-formed code finding no live ticket — never
created, already consumed, or expired, all of which make the registry read
return nothing — answers 404 (the model has no server-error path there);
and after a first successful redeem the ticket is deleted, so a second
redeem of the same code at any later instant answers 404. -/
theorem redeem_miss_404 (now now2 : Int) (reg : Registry) (q : Option String)
    (h : isSixDigits (jsTrim (q.getD "")) = true) :
    (Registry.get reg now (syncKey (jsTrim (q.getD ""))) = none →
      (getHandler now reg "GET" q).resp.status = 404) ∧
    ((getHandler now reg "GET" q).resp.status = 200 →
      (getHandler now2 (getHandler now reg "GET" q).reg "GET" q).resp.status
        = 404) := by
  constructor
  · intro hnone
    simp [getHandler, h, hnone]
  · intro h200
    cases hget : Registry.get reg now (syncKey (jsTrim (q.getD ""))) with
    | none => simp [getHandler, h, hget] at h200
    | some v => simp [getHandler, h, hget, Registry.get_del_self]

/-- C3 witness: code `123456` on the empty registry. -/
theorem redeem_miss_404_witness :
    isSixDigits (jsTrim ((some "123456").getD "")) = true ∧
    ((Registry.get emptyReg 0 (syncKey (jsTrim ((some "123456").getD "")))
        = none →
      (getHandler 0 emptyReg "GET" (some "123456")).resp.status = 404) ∧
    ((getHandler 0 emptyReg "GET" (some "123456")).resp.status = 200 →
      (getHandler 0 (getHandler 0 emptyReg "GET" (some "123456")).reg "GET"
        (some "123456")).resp.status = 404)) :=
  ⟨rfl, redeem_miss_404 0 0 emptyReg (some "123456") rfl⟩

/-- C2 counterexample: the payload `{records: [], mode: ""}` is valid
(`records` is an array) and carries its scope tag (the `mode` field)
explicitly, so the claim demands the redeemed snapshot be deep-equal to it;
but the handler's `payload.mode || "all"` treats the falsy present value
`""` as absent, and the redeemed snapshot comes back with `mode` = `"all"`,
not deep-equal to the input. -/
theorem create_redeem_roundtrip_cex :
    lookupKey cexPayload "mode" = some (.str "") ∧
    cexRedeem.resp.status = 200 ∧
    getProp cexRedeem.resp.body "mode" = some (.str "all") ∧
    cexRedeem.resp.body ≠ .obj cexPayload := by
  refine ⟨rfl, rfl, rfl, ?_⟩
  intro h
  rw [show cexRedeem.resp.body =
    JVal.obj [("records", .arr []), ("mode", .str "all"),
      ("exportedAt", .num 0)] from rfl] at h
  simp [cexPayload] at h

/-- C2 (amended): for every valid payload, create immediately followed by
redeem of the returned code succeeds and yields a snapshot agreeing with
the input on every field except the scope tag (`mode`) and `exportedAt`;
those two come back `JS`-defaulted: the stored value is kept when present
and truthy, and replaced by `"all"` (resp. the server time) when absent OR
falsy (empty-string tag, zero timestamp). -/
theorem create_redeem_roundtrip_amended (parse : String → Option JVal)
    (gen : Nat → String) (now : Int) (reg : Registry)
    (o : List (String × JVal))
    (hrec : isArrOpt (lookupKey o "records") = true)
    (hgen : ∀ i, isSixDigits (gen i) = true) :
    (redeemAfterCreate parse gen now reg (.obj o) now).resp.status = 200 ∧
    (∀ k, k ≠ "mode" → k ≠ "exportedAt" →
      getProp (redeemAfterCreate parse gen now reg (.obj o) now).resp.body k
        = lookupKey o k) ∧
    getProp (redeemAfterCreate parse gen now reg (.obj o) now).resp.body
        "mode" = some (jsOr (lookupKey o "mode") (.str "all")) ∧
    getProp (redeemAfterCreate parse gen now reg (.obj o) now).resp.body
        "exportedAt" = some (jsOr (lookupKey o "exportedAt") (.num now)) := by
  have hfresh := redeemAfterCreate_fresh parse gen now reg o now hrec hgen
    (by omega)
  rw [hfresh]
  refine ⟨rfl, ?_, ?_, ?_⟩
  · intro k h1 h2
    simpa [getProp] using normalizeObj_lookup_ne o now k h1 h2
  · simpa [getProp] using normalizeObj_mode o now
  · simpa [getProp] using normalizeObj_exportedAt o now

/-- C2 witness: minimal valid payload, first draw `123456`, both calls at
instant 0. -/
theorem create_redeem_roundtrip_amended_witness :
    isArrOpt (lookupKey wPayload "records") = true ∧
    (∀ i, isSixDigits (wGen i) = true) ∧
    ((redeemAfterCreate wParse wGen 0 emptyReg (.obj wPayload) 0).resp.status
        = 200 ∧
    (∀ k, k ≠ "mode" → k ≠ "exportedAt" →
      getProp (redeemAfterCreate wParse wGen 0 emptyReg
        (.obj wPayload) 0).resp.body k = lookupKey wPayload k) ∧
    getProp (redeemAfterCreate wParse wGen 0 emptyReg
        (.obj wPayload) 0).resp.body "mode" =
      some (jsOr (lookupKey wPayload "mode") (.str "all")) ∧
    getProp (redeemAfterCreate wParse wGen 0 emptyReg
        (.obj wPayload) 0).resp.body "exportedAt" =
      some (jsOr (lookupKey wPayload "exportedAt") (.num 0))) :=
  ⟨rfl, fun _ => rfl, create_redeem_roundtrip_amended wParse wGen 0 emptyReg
    wPayload rfl (fun _ => rfl)⟩

/-- C10: the sync core transports the payload opaquely: the `records` value
(hence every element and every field of every element) appears verbatim in
the snapshot redeem returns, and so does every other payload field except
the scope tag (`mode`) and `exportedAt` — the core never inspects, merges,
or modifies individual entry fields. -/
theorem sync_opaque_transport (parse : String → Option JVal)
    (gen : Nat → String) (now : Int) (reg : Registry)
    (o : List (String × JVal))
    (hrec : isArrOpt (lookupKey o "records") = true)
    (hgen : ∀ i, isSixDigits (gen i) = true) :
    getProp (redeemAfterCreate parse gen now reg (.obj o) now).resp.body
        "records" = lookupKey o "records" ∧
    ∀ k, k ≠ "mode" → k ≠ "exportedAt" →
      getProp (redeemAfterCreate parse gen now reg (.obj o) now).resp.body k
        = lookupKey o k := by
  have hfresh := redeemAfterCreate_fresh parse gen now reg o now hrec hgen
    (by omega)
  rw [hfresh]
  constructor
  · simpa [getProp] using
      normalizeObj_lookup_ne o now "records" (by decide) (by decide)
  · intro k h1 h2
    simpa [getProp] using normalizeObj_lookup_ne o now k h1 h2

/-- C10 witness. -/
theorem sync_opaque_transport_witness :
    isArrOpt (lookupKey wPayload "records") = true ∧
    (∀ i, isSixDigits (wGen i) = true) ∧
    (getProp (redeemAfterCreate wParse wGen 0 emptyReg
        (.obj wPayload) 0).resp.body "records" = lookupKey wPayload "records" ∧
    ∀ k, k ≠ "mode" → k ≠ "exportedAt" →
      getProp (redeemAfterCreate wParse wGen 0 emptyReg
        (.obj wPayload) 0).resp.body k = lookupKey wPayload k) :=
  ⟨rfl, fun _ => rfl, sync_opaque_transport wParse wGen 0 emptyReg wPayload
    rfl (fun _ => rfl)⟩

/-- C9: a successful create stores the ticket with an absolute expiry of
exactly `now + 600` seconds (ttl 600), reports `expiresInSec = 600` in its
200 response, and a ticket not redeemed within the window is unreachable:
any redeem of the returned code at an instant `t ≥ now + 600` answers
404. -/
theorem create_ttl_expiry (parse : String → Option JVal)
    (gen : Nat → String) (now : Int) (reg : Registry)
    (o : List (String × JVal))
    (hrec : isArrOpt (lookupKey o "records") = true)
    (hgen : ∀ i, isSixDigits (gen i) = true) :
    (createHandler parse gen now reg "POST" (.obj o)).resp.status = 200 ∧
    getProp (createHandler parse gen now reg "POST" (.obj o)).resp.body
        "expiresInSec" = some (.num 600) ∧
    (createHandler parse gen now reg "POST" (.obj o)).reg
        (syncKey (respCode
          (createHandler parse gen now reg "POST" (.obj o)).resp)) =
      some (.obj (normalizeObj o now), now + 600) ∧
    ∀ t : Int, now + 600 ≤ t →
      (redeemAfterCreate parse gen now reg (.obj o) t).resp.status = 404 := by
  refine ⟨?_, ?_, ?_, ?_⟩
  · rw [createHandler_valid parse gen now reg o hrec]
  · rw [createHandler_valid parse gen now reg o hrec]
    simp [getProp, lookupKey]
  · rw [createHandler_valid parse gen now reg o hrec]
    simp [respCode_create, Registry.set]
  · intro t ht
    exact redeemAfterCreate_expired parse gen now reg o t hrec hgen ht

/-- C9 witness. -/
theorem create_ttl_expiry_witness :
    isArrOpt (lookupKey wPayload "records") = true ∧
    (∀ i, isSixDigits (wGen i) = true) ∧
    ((createHandler wParse wGen 0 emptyReg "POST" (.obj wPayload)).resp.status
        = 200 ∧
    getProp (createHandler wParse wGen 0 emptyReg "POST"
        (.obj wPayload)).resp.body "expiresInSec" = some (.num 600) ∧
    (createHandler wParse wGen 0 emptyReg "POST" (.obj wPayload)).reg
        (syncKey (respCode (createHandler wParse wGen 0 emptyReg "POST"
          (.obj wPayload)).resp)) =
      some (.obj (normalizeObj wPayload 0), 0 + 600) ∧
    ∀ t : Int, 0 + 600 ≤ t →
      (redeemAfterCreate wParse wGen 0 emptyReg (.obj wPayload) t).resp.status
        = 404) :=
  ⟨rfl, fun _ => rfl, create_ttl_expiry wParse wGen 0 emptyReg wPayload rfl
    (fun _ => rfl)⟩

/-- C8: the collision-probe loop of create performs at most 8 registry
probes; if every one of the 8 probed candidates (`gen 0` … `gen 7`)
collides with a live ticket, create proceeds with the last drawn candidate
(`gen 8`) instead of failing; and whenever some probed candidate is free —
i.e. fewer collisions than the bound occur — the code create settles on is
free (does not collide with any live ticket) at the instant it was
probed. -/
theorem create_probe_bounded (liveAt : String → Bool) (gen : Nat → String) :
    (syncCodeRun liveAt gen).2.length ≤ 8 ∧
    ((∀ i, i < 8 → liveAt (gen i) = true) →
      (syncCodeRun liveAt gen).1 = gen 8) ∧
    ((∃ i, i < 8 ∧ liveAt (gen i) = false) →
      liveAt (syncCodeRun liveAt gen).1 = false) := by
  refine ⟨codeLoopT_probes_le liveAt gen 8 (gen 0) 1, ?_, ?_⟩
  · intro hall
    have h := codeLoopT_all_live liveAt gen 8 1 (gen 0) (hall 0 (by omega))
      (fun j hj1 hj2 => hall j (by omega))
    rw [if_neg (by omega)] at h
    simpa [syncCodeRun] using h
  · rintro ⟨i, hi, hfree⟩
    by_cases h0 : i = 0
    · subst h0
      unfold syncCodeRun
      rw [codeLoopT_of_free liveAt gen 8 1 (gen 0) hfree]
      exact hfree
    · exact codeLoopT_free_result liveAt gen 8 1 (gen 0)
        ⟨i, by omega, by omega, hfree⟩

/-- C7: every candidate code is the decimal rendering of
`⌊100000 + r·900000⌋` for a uniform draw `r ∈ [0, 1)`: its value always
lies in `[100000, 999999]`, it always has exactly 6 decimal digits (no
leading-zero truncation), and the draw is uniform over that space: the
preimage of each 6-digit value `n` is the half-open interval
`[(n-100000)/900000, (n-100000+1)/900000)`, the same length `1/900000` for
every `n`. -/
theorem makeCode_range_uniform (r : ℚ) (h0 : 0 ≤ r) (h1 : r < 1) :
    100000 ≤ makeCode r ∧ makeCode r ≤ 999999 ∧
    (Nat.digits 10 (makeCode r)).length = 6 ∧
    ∀ n : ℕ, 100000 ≤ n → n ≤ 999999 →
      (makeCode r = n ↔
        ((n : ℚ) - 100000) / 900000 ≤ r ∧
          r < ((n : ℚ) - 100000 + 1) / 900000) := by
  have hf0 : (100000 : ℤ) ≤ ⌊(100000 : ℚ) + r * 900000⌋ := by
    apply Int.le_floor.mpr
    push_cast
    nlinarith
  have hf1 : ⌊(100000 : ℚ) + r * 900000⌋ < 1000000 := by
    apply Int.floor_lt.mpr
    push_cast
    nlinarith
  have hm0 : 100000 ≤ makeCode r := by unfold makeCode; omega
  have hm1 : makeCode r ≤ 999999 := by unfold makeCode; omega
  refine ⟨hm0, hm1, ?_, ?_⟩
  · rw [Nat.digits_len 10 _ (by norm_num) (by omega)]
    have hlog : Nat.log 10 (makeCode r) = 5 := by
      apply Nat.log_eq_of_pow_le_of_lt_pow
      · norm_num
        omega
      · norm_num
        omega
    omega
  · intro n hn0 hn1
    constructor
    · intro he
      have hfe : ⌊(100000 : ℚ) + r * 900000⌋ = (n : ℤ) := by
        unfold makeCode at he
        omega
      obtain ⟨hl, hr⟩ := Int.floor_eq_iff.mp hfe
      constructor
      · rw [div_le_iff₀ (by norm_num : (0 : ℚ) < 900000)]
        push_cast at hl ⊢
        linarith
      · rw [lt_div_iff₀ (by norm_num : (0 : ℚ) < 900000)]
        push_cast at hr ⊢
        linarith
    · rintro ⟨hl, hr⟩
      rw [div_le_iff₀ (by norm_num : (0 : ℚ) < 900000)] at hl
      rw [lt_div_iff₀ (by norm_num : (0 : ℚ) < 900000)] at hr
      have hfe : ⌊(100000 : ℚ) + r * 900000⌋ = (n : ℤ) := by
        apply Int.floor_eq_iff.mpr
        constructor
        · push_cast
          linarith
        · push_cast
          linarith
      unfold makeCode
      omega

/-- C7 witness: the draw `r = 1/2`. -/
theorem makeCode_range_uniform_witness :
    (0 : ℚ) ≤ 1 / 2 ∧ (1 / 2 : ℚ) < 1 ∧
    (100000 ≤ makeCode (1 / 2) ∧ makeCode (1 / 2) ≤ 999999 ∧
    (Nat.digits 10 (makeCode (1 / 2))).length = 6 ∧
    ∀ n : ℕ, 100000 ≤ n → n ≤ 999999 →
      (makeCode (1 / 2) = n ↔
        ((n : ℚ) - 100000) / 900000 ≤ 1 / 2 ∧
          (1 / 2 : ℚ) < ((n : ℚ) - 100000 + 1) / 900000)) :=
  ⟨by norm_num, by norm_num,
    makeCode_range_uniform (1 / 2) (by norm_num) (by norm_num)⟩

end SgaSync
